import Mathlib

/-!
Shallow embedding of the MAS REST scoring client
(`score_with_mas_rest.py`) from the sas-open-hmeq repository.

The client's data is JSON: records are Python dicts (ordered key/value
maps), service responses are JSON objects with optional `items`,
`outputs` and `inputs` arrays.  We embed:

* Python dicts as association lists with in-place update on existing
  keys and append on fresh keys (`dinsert` / `dget`), matching Python
  dict insertion-order semantics;
* the service responses as structures with `Option`al arrays, so that
  `r.json().get('items', [])` becomes `items?.getD []`;
* the HTTP layer as an oracle `net : Nat → Payload α → HttpResp α`,
  giving the response the service would return to the k-th request;
* scalar cell values as an arbitrary type `α`.

Values are polymorphic in `α`; concrete examples use `Int`.
-/

namespace MasRest

/-- Python `str.lower()` as the client applies it (to step identifiers
and record keys, which are basic-latin): lower-case every character.
Extensionally this is `String.toLower`, written with structural
recursion over the character list so that concrete instances
compute. -/
def pyLower (s : String) : String := ⟨s.data.map Char.toLower⟩

/-- One `{name, value}` pair as it appears in the JSON `inputs` /
`outputs` arrays. -/
structure KV (α : Type) where
  name : String
  value : α
deriving DecidableEq, Repr

/-- A scoring response body: `outputs` and `inputs` arrays, either of
which may be absent (the code reads them with `item.get(..., [])`). -/
structure ScoreResponse (α : Type) where
  outputs? : Option (List (KV α))
  inputs? : Option (List (KV α))
deriving DecidableEq, Repr

/-- `item.get('outputs', [])`. -/
def ScoreResponse.outputsD (r : ScoreResponse α) : List (KV α) :=
  r.outputs?.getD []

/-- `item.get('inputs', [])`. -/
def ScoreResponse.inputsD (r : ScoreResponse α) : List (KV α) :=
  r.inputs?.getD []

/-- Python dict insertion: overwrite the value in place if the key is
present, otherwise append the pair at the end. -/
def dinsert (k : String) (v : α) : List (String × α) → List (String × α)
  | [] => [(k, v)]
  | p :: rest => if p.1 = k then (k, v) :: rest else p :: dinsert k v rest

/-- Python dict lookup. -/
def dget : List (String × α) → String → Option α
  | [], _ => none
  | p :: rest, k => if p.1 = k then some p.2 else dget rest k

/-- Fold a `{name, value}` list into a dict, inserting in list order
(the dict comprehension / update loop of `main`, lines 100-103). -/
def insertAll (l : List (KV α)) (d : List (String × α)) : List (String × α) :=
  l.foldl (fun d kv => dinsert kv.name kv.value d) d

/-- Result-row construction from `main` (lines 98-104): a dict is built
from the response's `outputs` pairs, then every echoed `inputs` pair is
inserted on top of it. -/
def buildRow (item : ScoreResponse α) : List (String × α) :=
  insertAll item.inputsD (insertAll item.outputsD [])

/-- Value of the LAST `{name, value}` pair in `l` carrying key `k`
(later inserts win in a dict). Spec-side characterisation device. -/
def lastVal : List (KV α) → String → Option α
  | [], _ => none
  | kv :: rest, k =>
    match lastVal rest k with
    | some v => some v
    | none => if kv.name = k then some kv.value else none

/-- One item of the module-listing response (`name` at least). -/
structure ModuleItem where
  name : String
deriving DecidableEq, Repr

/-- Body of the module-listing response; the `items` array may be
absent (`r.json().get('items', [])`). -/
structure ModulesResponse where
  items? : Option (List ModuleItem)
deriving DecidableEq, Repr

/-- `list_modules` (lines 21-26), after the HTTP fetch succeeded:
extract the `name` of every listed item, in service order. -/
def list_modules (resp : ModulesResponse) : List String :=
  (resp.items?.getD []).map (·.name)

/-- One step (operation) of the steps-listing response: its `id`
(the code also prints optional `inputs`; they play no role in the
selection logic). -/
structure Step where
  id : String
deriving DecidableEq, Repr

/-- Body of the steps-listing response; the `items` array may be
absent (`r.json().get('items', [])`). -/
structure StepsResponse where
  items? : Option (List Step)
deriving DecidableEq, Repr

/-- `get_step_id` (lines 29-51), after the HTTP fetch succeeded: return
the first step whose `id` lower-cases to `"score"`; otherwise fail if
there are no steps, else return the first step's `id`.  The printing
block (lines 35-44) is diagnostic output and does not affect the
result. -/
def get_step_id (module : String) (resp : StepsResponse) :
    Except String String :=
  let items := resp.items?.getD []
  match items.find? (fun step => pyLower step.id == "score") with
  | some step => .ok step.id
  | none =>
    match items with
    | [] => .error ("No steps found for module '" ++ module ++ "'")
    | first :: _ => .ok first.id

/-- The request payload `{'inputs': [...]}` built per record. -/
structure Payload (α : Type) where
  inputs : List (KV α)
deriving DecidableEq, Repr

/-- `[{'name': k.lower(), 'value': v} for k, v in rec.items()]`
(line 66): one entry per key of the record, key lower-cased, value
unchanged, no filtering. -/
def mk_inputs (rec : List (String × α)) : List (KV α) :=
  rec.map (fun kv => ⟨pyLower kv.1, kv.2⟩)

/-- An HTTP response to a scoring POST, as the client observes it:
`r.ok`, `r.status_code`, `r.text`, and the parsed JSON body
`r.json()`. -/
structure HttpResp (α : Type) where
  ok : Bool
  status : Nat
  text : String
  body : ScoreResponse α

/-- One scoring POST actually issued: its target URL and its payload. -/
structure Request (α : Type) where
  url : String
  payload : Payload α
deriving DecidableEq, Repr

/-- What the client surfaces when a scoring call is not OK (lines
70-75): the offending request payload and the response's status code
and body text, then `raise_for_status()` raises. -/
structure ScoreError (α : Type) where
  payload : Payload α
  status : Nat
  text : String
deriving DecidableEq, Repr

/-- How a `score_records` run can fail: the `RuntimeError` from step
resolution, or an HTTP error raised on some record's scoring call. -/
inductive ScoreFailure (α : Type) where
  | noSteps (msg : String)
  | badResponse (err : ScoreError α)
deriving DecidableEq, Repr

/-- The scoring URL `f"{host}/microanalyticScore/modules/{module}/steps/{step}"`
(line 56). -/
def score_url (host module step : String) : String :=
  host ++ "/microanalyticScore/modules/" ++ module ++ "/steps/" ++ step

/-- The per-record loop of `score_records` (lines 64-79), with the HTTP
layer abstracted as the oracle `net` (response to the `k`-th request).
Returns the trace of requests actually issued together with either the
collected response bodies or the error raised at the first non-OK
response. -/
def score_loop (net : Nat → Payload α → HttpResp α) (url : String) :
    List (List (String × α)) → Nat →
      List (Request α) × Except (ScoreError α) (List (ScoreResponse α))
  | [], _ => ([], .ok [])
  | rec :: rest, k =>
    let payload : Payload α := ⟨mk_inputs rec⟩
    let resp := net k payload
    if resp.ok then
      let r := score_loop net url rest (k + 1)
      (⟨url, payload⟩ :: r.1, r.2.map (fun results => resp.body :: results))
    else
      ([⟨url, payload⟩], .error ⟨payload, resp.status, resp.text⟩)

/-- `score_records` (lines 54-79): resolve the step once, then score
each record in order against the single module-and-step URL, failing
fast on the first non-OK response.  `stepsResp` is the body of the
steps-listing fetch inside `get_step_id`. -/
def score_records (net : Nat → Payload α → HttpResp α)
    (host module : String) (stepsResp : StepsResponse)
    (records : List (List (String × α))) :
    List (Request α) × Except (ScoreFailure α) (List (ScoreResponse α)) :=
  match get_step_id module stepsResp with
  | .error e => ([], .error (.noSteps e))
  | .ok step =>
    let url := score_url host module step
    let r := score_loop net url records 0
    (r.1, r.2.mapError .badResponse)

/-- `true` iff the response the oracle gives to record `j` (scored as
request `i + j`) is OK, vacuously `true` past the end of `records`. -/
def okFrom (net : Nat → Payload α → HttpResp α)
    (records : List (List (String × α))) (i j : Nat) : Bool :=
  match records.get? j with
  | some rec => (net (i + j) ⟨mk_inputs rec⟩).ok
  | none => true

/-- The response bodies a fully successful loop collects, record by
record, starting at request index `i`. -/
def loopResults (net : Nat → Payload α → HttpResp α) :
    List (List (String × α)) → Nat → List (ScoreResponse α)
  | [], _ => []
  | rec :: rest, i => (net i ⟨mk_inputs rec⟩).body :: loopResults net rest (i + 1)

/-! ### Dict lemmas -/

theorem dget_dinsert (k : String) (v : α) (d : List (String × α)) (q : String) :
    dget (dinsert k v d) q = if k = q then some v else dget d q := by
  induction d with
  | nil => simp [dinsert, dget]
  | cons p rest ih =>
    simp only [dinsert]
    split_ifs with h1 <;> simp only [dget] <;> split_ifs <;> simp_all [dget]

theorem dget_insertAll (l : List (KV α)) (d : List (String × α)) (q : String) :
    dget (insertAll l d) q =
      match lastVal l q with
      | some v => some v
      | none => dget d q := by
  induction l generalizing d with
  | nil => simp [insertAll, lastVal]
  | cons kv rest ih =>
    simp only [insertAll, List.foldl_cons] at *
    rw [ih]
    cases h : lastVal rest q with
    | some v => simp [lastVal, h]
    | none =>
      rw [dget_dinsert]
      simp only [lastVal, h]
      split_ifs <;> rfl

/-- Looking a key up in a built result row: the last echoed input with
that key wins; failing that, the last declared output with that key. -/
theorem dget_buildRow (item : ScoreResponse α) (q : String) :
    dget (buildRow item) q =
      match lastVal item.inputsD q with
      | some v => some v
      | none => lastVal item.outputsD q := by
  unfold buildRow
  rw [dget_insertAll]
  cases lastVal item.inputsD q with
  | some v => rfl
  | none =>
    rw [dget_insertAll]
    cases lastVal item.outputsD q with
    | some v => rfl
    | none => rfl

/-! ### Scoring-loop lemmas -/

/-- The request trace of a scoring loop is always the image, under
"build the request for this record", of a prefix of the record list. -/
theorem score_loop_trace (net : Nat → Payload α → HttpResp α) (url : String)
    (records : List (List (String × α))) (i : Nat) :
    ∃ m, m ≤ records.length ∧
      (score_loop net url records i).1 =
        (records.take m).map
          (fun rec => (⟨url, ⟨mk_inputs rec⟩⟩ : Request α)) := by
  induction records generalizing i with
  | nil => exact ⟨0, by simp [score_loop]⟩
  | cons rec rest ih =>
    simp only [score_loop]
    split_ifs with h
    · obtain ⟨m, hm, htr⟩ := ih (i + 1)
      exact ⟨m + 1, by simpa using hm, by simp [htr]⟩
    · exact ⟨1, by simp, by simp⟩

/-- Every request the loop issues targets the loop's URL. -/
theorem score_loop_url (net : Nat → Payload α → HttpResp α) (url : String)
    (records : List (List (String × α))) (i : Nat) :
    ∀ req ∈ (score_loop net url records i).1, req.url = url := by
  obtain ⟨m, _, htr⟩ := score_loop_trace net url records i
  intro req hreq
  rw [htr] at hreq
  obtain ⟨rec, _, rfl⟩ := List.mem_map.mp hreq
  rfl

theorem loopResults_length (net : Nat → Payload α → HttpResp α)
    (records : List (List (String × α))) (i : Nat) :
    (loopResults net records i).length = records.length := by
  induction records generalizing i with
  | nil => rfl
  | cons rec rest ih => simp [loopResults, ih]

theorem loopResults_get? (net : Nat → Payload α → HttpResp α)
    (records : List (List (String × α))) (i k : Nat) :
    (loopResults net records i).get? k =
      (records.get? k).map (fun rec => (net (i + k) ⟨mk_inputs rec⟩).body) := by
  induction records generalizing i k with
  | nil => simp [loopResults]
  | cons rec rest ih =>
    cases k with
    | zero => simp [loopResults]
    | succ k =>
      simp only [loopResults, List.get?_cons_succ]
      rw [ih (i + 1) k]
      have : i + 1 + k = i + (k + 1) := by omega
      rw [this]

/-- When the oracle answers OK for every record, the loop issues one
request per record and collects every response body in order. -/
theorem score_loop_all_ok (net : Nat → Payload α → HttpResp α) (url : String)
    (records : List (List (String × α))) (i : Nat)
    (h : ∀ j, j < records.length → okFrom net records i j = true) :
    (score_loop net url records i).2 = .ok (loopResults net records i) ∧
      (score_loop net url records i).1 =
        records.map (fun rec => (⟨url, ⟨mk_inputs rec⟩⟩ : Request α)) := by
  induction records generalizing i with
  | nil => exact ⟨rfl, rfl⟩
  | cons rec rest ih =>
    have h0 : (net i ⟨mk_inputs rec⟩).ok = true := by
      have := h 0 (by simp)
      simpa [okFrom] using this
    have hrest : ∀ j, j < rest.length → okFrom net rest (i + 1) j = true := by
      intro j hj
      have := h (j + 1) (by simpa using Nat.succ_lt_succ hj)
      simp only [okFrom, List.get?_cons_succ] at this ⊢
      have harith : i + 1 + j = i + (j + 1) := by omega
      rw [harith]
      exact this
    obtain ⟨h1, h2⟩ := ih (i + 1) hrest
    simp only [score_loop, h0, if_true]
    exact ⟨by rw [h1]; rfl, by rw [h2]; simp [loopResults]⟩

/-- When the oracle answers OK for records `0..k-1` and non-OK for
record `k`, the loop stops at record `k`: it issues exactly `k + 1`
requests and raises the error carrying record `k`'s payload and the
response's status and text. -/
theorem score_loop_fail (net : Nat → Payload α → HttpResp α) (url : String)
    (records : List (List (String × α))) (i k : Nat)
    (rec_k : List (String × α)) (hk : records.get? k = some rec_k)
    (hok : ∀ j, j < k → okFrom net records i j = true)
    (hbad : (net (i + k) ⟨mk_inputs rec_k⟩).ok = false) :
    (score_loop net url records i).2 =
      .error ⟨⟨mk_inputs rec_k⟩, (net (i + k) ⟨mk_inputs rec_k⟩).status,
        (net (i + k) ⟨mk_inputs rec_k⟩).text⟩ ∧
      (score_loop net url records i).1.length = k + 1 := by
  induction k generalizing records i with
  | zero =>
    cases records with
    | nil => simp at hk
    | cons rec rest =>
      have hrec : rec = rec_k := by simpa using hk
      subst hrec
      simp only [Nat.add_zero] at hbad ⊢
      simp [score_loop, hbad]
  | succ k ihk =>
    cases records with
    | nil => simp at hk
    | cons rec rest =>
      have h0 : (net i ⟨mk_inputs rec⟩).ok = true := by
        have := hok 0 (Nat.succ_pos k)
        simpa [okFrom] using this
      have hk' : rest.get? k = some rec_k := by simpa using hk
      have hok' : ∀ j, j < k → okFrom net rest (i + 1) j = true := by
        intro j hj
        have := hok (j + 1) (Nat.succ_lt_succ hj)
        simp only [okFrom, List.get?_cons_succ] at this ⊢
        have harith : i + 1 + j = i + (j + 1) := by omega
        rw [harith]
        exact this
      have hbad' : (net (i + 1 + k) ⟨mk_inputs rec_k⟩).ok = false := by
        have harith : i + 1 + k = i + (k + 1) := by omega
        rw [harith]
        exact hbad
      obtain ⟨h1, h2⟩ := ihk rest (i + 1) hk' hok' hbad'
      have harith : i + 1 + k = i + (k + 1) := by omega
      simp only [score_loop, h0, if_true]
      constructor
      · rw [h1]
        rw [harith] at *
        rfl
      · simp [h2]

/-- `List.find?` returns the head of the filtered list. -/
theorem find?_eq_filter_head? (p : β → Bool) (l : List β) :
    l.find? p = (l.filter p).head? := by
  induction l with
  | nil => rfl
  | cons x rest ih =>
    by_cases h : p x = true
    · rw [List.find?_cons_of_pos _ h, List.filter_cons_of_pos h]
      rfl
    · rw [List.find?_cons_of_neg _ h, List.filter_cons_of_neg h, ih]

/-! ### Claims -/

/-- C1: a result row is built by inserting every `outputs` pair and
then every echoed `inputs` pair on top, so an echoed input whose key
equals an output key provides the value present in the final row
(outputs `loan=999` with echoed inputs `loan=50000` yields
`loan = 50000`), and without a collision the row is the plain union
(outputs `bad=0` plus echoed inputs `loan=50000` yields
`{bad: 0, loan: 50000}`). -/
theorem C1_inputs_overwrite_outputs :
    (∀ (α : Type) (item : ScoreResponse α) (q : String),
      dget (buildRow item) q =
        match lastVal item.inputsD q with
        | some v => some v
        | none => lastVal item.outputsD q) ∧
    buildRow (⟨some [⟨"loan", 999⟩], some [⟨"loan", 50000⟩]⟩ :
        ScoreResponse Int) = [("loan", 50000)] ∧
    buildRow (⟨some [⟨"bad", 0⟩], some [⟨"loan", 50000⟩]⟩ :
        ScoreResponse Int) = [("bad", 0), ("loan", 50000)] :=
  ⟨fun _ item q => dget_buildRow item q, by decide, by decide⟩

/-- C2 counterexample: with outputs `loan=999` and echoed inputs
`loan=50000`, the final row holds `50000`, not the output's `999` —
output keys do NOT take precedence on collision. -/
theorem C2_output_precedence_counterexample :
    dget (buildRow (⟨some [⟨"loan", 999⟩], some [⟨"loan", 50000⟩]⟩ :
        ScoreResponse Int)) "loan" = some 50000 ∧
    dget (buildRow (⟨some [⟨"loan", 999⟩], some [⟨"loan", 50000⟩]⟩ :
        ScoreResponse Int)) "loan" ≠ some 999 := by
  constructor <;> decide

/-- C2 (amended): when an output key collides with an echoed input
key, the result row holds the ECHOED INPUT's value for that key (the
inputs are merged after the outputs and overwrite them). -/
theorem C2_collision_input_wins (α : Type) (item : ScoreResponse α)
    (q : String) (v : α) (h : lastVal item.inputsD q = some v) :
    dget (buildRow item) q = some v := by
  rw [dget_buildRow, h]

theorem C2_collision_input_wins_witness :
    lastVal (ScoreResponse.inputsD
        (⟨some [⟨"loan", 999⟩], some [⟨"loan", 50000⟩]⟩ :
          ScoreResponse Int)) "loan" = some 50000 ∧
    dget (buildRow (⟨some [⟨"loan", 999⟩], some [⟨"loan", 50000⟩]⟩ :
        ScoreResponse Int)) "loan" = some 50000 :=
  ⟨by decide, C2_collision_input_wins Int _ "loan" 50000 (by decide)⟩

/-- C3: for a module with a non-empty step list, `get_step_id` returns
the id of the first step whose identifier lower-cases to `"score"`
when the filtered list is non-empty (regardless of position), and the
id of the first declared step otherwise. -/
theorem C3_step_selection (module : String) (resp : StepsResponse)
    (s0 : Step) (h : (resp.items?.getD []).head? = some s0) :
    get_step_id module resp = .ok
      (match ((resp.items?.getD []).filter
          (fun t => pyLower t.id == "score")).head? with
       | some s => s.id
       | none => s0.id) := by
  cases hitems : resp.items?.getD [] with
  | nil => rw [hitems] at h; simp at h
  | cons a t =>
    rw [hitems] at h
    have ha : a = s0 := by simpa using h
    subst ha
    simp only [get_step_id, hitems]
    rw [find?_eq_filter_head?]
    cases hf : ((a :: t).filter (fun t => pyLower t.id == "score")).head? with
    | some s => simp
    | none => simp

theorem C3_step_selection_witness :
    ((⟨some [⟨"execute"⟩, ⟨"Score"⟩]⟩ : StepsResponse).items?.getD
        []).head? = some (Step.mk "execute") ∧
    get_step_id "hmeq_gbm" (⟨some [⟨"execute"⟩, ⟨"Score"⟩]⟩ : StepsResponse)
      = .ok
        (match (((⟨some [⟨"execute"⟩, ⟨"Score"⟩]⟩ :
            StepsResponse).items?.getD []).filter
            (fun t => pyLower t.id == "score")).head? with
         | some s => s.id
         | none => (⟨"execute"⟩ : Step).id) :=
  ⟨by decide, C3_step_selection "hmeq_gbm"
    (⟨some [⟨"execute"⟩, ⟨"Score"⟩]⟩ : StepsResponse) (Step.mk "execute")
    (by decide)⟩

/-- C5: a module declaring zero steps makes `get_step_id` fail with a
"No steps found" error naming the module, and `score_records` for it
issues no scoring request and returns that error instead of rows. -/
theorem C5_no_steps_error (α : Type) (net : Nat → Payload α → HttpResp α)
    (host module : String) (resp : StepsResponse)
    (records : List (List (String × α)))
    (h : resp.items?.getD [] = []) :
    get_step_id module resp =
        .error ("No steps found for module '" ++ module ++ "'") ∧
    (score_records net host module resp records).1 = [] ∧
    (score_records net host module resp records).2 =
      .error (.noSteps ("No steps found for module '" ++ module ++ "'")) := by
  have hstep : get_step_id module resp =
      .error ("No steps found for module '" ++ module ++ "'") := by
    simp [get_step_id, h]
  refine ⟨hstep, ?_, ?_⟩ <;> simp [score_records, hstep]

theorem C5_no_steps_error_witness :
    (⟨some []⟩ : StepsResponse).items?.getD [] = [] ∧
    (get_step_id "hmeq_gbm" (⟨some []⟩ : StepsResponse) =
        .error ("No steps found for module 'hmeq_gbm'") ∧
      (score_records (fun _ _ => ⟨true, 200, "", ⟨none, none⟩⟩)
        "https://host" "hmeq_gbm" (⟨some []⟩ : StepsResponse)
        [[("LOAN", (50000 : Int))]]).1 = [] ∧
      (score_records (fun _ _ => ⟨true, 200, "", ⟨none, none⟩⟩)
        "https://host" "hmeq_gbm" (⟨some []⟩ : StepsResponse)
        [[("LOAN", (50000 : Int))]]).2 =
        .error (.noSteps ("No steps found for module 'hmeq_gbm'"))) := by
  constructor
  · decide
  · have h := C5_no_steps_error Int (fun _ _ => ⟨true, 200, "", ⟨none, none⟩⟩)
      "https://host" "hmeq_gbm" (⟨some []⟩ : StepsResponse)
      [[("LOAN", (50000 : Int))]] (by decide)
    simpa using h

/-- C9: a listing response with no `items` key is treated as an empty
listing: `list_modules` returns no names, and `get_step_id` sees zero
steps and fails with the "No steps found" error naming the module. -/
theorem C9_missing_items_empty (module : String) :
    list_modules ⟨none⟩ = [] ∧
    get_step_id module (⟨none⟩ : StepsResponse) =
      .error ("No steps found for module '" ++ module ++ "'") := by
  exact ⟨rfl, by simp [get_step_id]⟩

theorem C9_missing_items_empty_witness :
    list_modules ⟨none⟩ = [] ∧
    get_step_id "hmeq_gbm" (⟨none⟩ : StepsResponse) =
      .error ("No steps found for module '" ++ "hmeq_gbm" ++ "'") :=
  C9_missing_items_empty "hmeq_gbm"

/-- C10: `get_step_id` returns the selected step's identifier in its
original service-declared casing — only the comparison is lower-cased —
so a module whose matching step is declared `"Score"` yields the
string `"Score"` (not `"score"`). -/
theorem C10_original_casing :
    (∀ (module : String) (resp : StepsResponse) (s : Step),
      (resp.items?.getD []).find? (fun t => pyLower t.id == "score")
          = some s →
        get_step_id module resp = .ok s.id) ∧
    get_step_id "hmeq_gbm" (⟨some [⟨"Score"⟩]⟩ : StepsResponse) =
      .ok "Score" ∧
    ("Score" : String) ≠ "score" := by
  refine ⟨?_, by rfl, by decide⟩
  intro module resp s hfind
  simp [get_step_id, hfind]

theorem C10_original_casing_witness :
    ((⟨some [⟨"Score"⟩]⟩ : StepsResponse).items?.getD []).find?
        (fun t => pyLower t.id == "score") = some (Step.mk "Score") ∧
    get_step_id "m" (⟨some [⟨"Score"⟩]⟩ : StepsResponse) =
      .ok (Step.mk "Score").id :=
  ⟨by decide, C10_original_casing.1 "m" _ ⟨"Score"⟩ (by decide)⟩

/-- C4: when the scoring call for record `k` returns a non-success
status (all earlier calls succeeding), `score_records` raises an error
carrying the offending request payload and the response's status and
body, delivers no result rows, and issues no request beyond record `k`
(no retry, no skip-and-continue). -/
theorem C4_fail_fast (α : Type) (net : Nat → Payload α → HttpResp α)
    (host module step : String) (stepsResp : StepsResponse)
    (records : List (List (String × α))) (k : Nat)
    (rec_k : List (String × α))
    (hstep : get_step_id module stepsResp = .ok step)
    (hk : records.get? k = some rec_k)
    (hok : ∀ j, j < k → okFrom net records 0 j = true)
    (hbad : (net k ⟨mk_inputs rec_k⟩).ok = false) :
    (score_records net host module stepsResp records).2 =
      .error (.badResponse ⟨⟨mk_inputs rec_k⟩,
        (net k ⟨mk_inputs rec_k⟩).status, (net k ⟨mk_inputs rec_k⟩).text⟩) ∧
    (score_records net host module stepsResp records).1.length = k + 1 := by
  have hbad0 : (net (0 + k) ⟨mk_inputs rec_k⟩).ok = false := by
    rwa [Nat.zero_add]
  obtain ⟨h1, h2⟩ := score_loop_fail net (score_url host module step)
    records 0 k rec_k hk hok hbad0
  rw [Nat.zero_add] at h1
  constructor
  · simp [score_records, hstep, h1, Except.mapError]
  · simp [score_records, hstep, h2]

theorem C4_fail_fast_witness :
    get_step_id "hmeq_gbm" (⟨some [Step.mk "score"]⟩ : StepsResponse) =
        .ok "score" ∧
    ([[("A", (1 : Int))], [("B", 2)], [("C", 3)]].get? 1 = some [("B", 2)]) ∧
    (∀ j, j < 1 → okFrom
        (fun i _ => if i = 0 then ⟨true, 200, "", ⟨none, none⟩⟩
          else ⟨false, 400, "bad request", ⟨none, none⟩⟩)
        [[("A", (1 : Int))], [("B", 2)], [("C", 3)]] 0 j = true) ∧
    ((score_records
        (fun i _ => if i = 0 then ⟨true, 200, "", ⟨none, none⟩⟩
          else ⟨false, 400, "bad request", ⟨none, none⟩⟩)
        "https://host" "hmeq_gbm" (⟨some [Step.mk "score"]⟩ : StepsResponse)
        [[("A", (1 : Int))], [("B", 2)], [("C", 3)]]).2 =
      .error (.badResponse ⟨⟨mk_inputs [("B", (2 : Int))]⟩, 400, "bad request"⟩) ∧
     (score_records
        (fun i _ => if i = 0 then ⟨true, 200, "", ⟨none, none⟩⟩
          else ⟨false, 400, "bad request", ⟨none, none⟩⟩)
        "https://host" "hmeq_gbm" (⟨some [Step.mk "score"]⟩ : StepsResponse)
        [[("A", (1 : Int))], [("B", 2)], [("C", 3)]]).1.length = 1 + 1) := by
  refine ⟨by rfl, by decide, by decide, ?_⟩
  exact C4_fail_fast Int
    (fun i _ => if i = 0 then ⟨true, 200, "", ⟨none, none⟩⟩
      else ⟨false, 400, "bad request", ⟨none, none⟩⟩)
    "https://host" "hmeq_gbm" "score" (⟨some [Step.mk "score"]⟩ : StepsResponse)
    [[("A", (1 : Int))], [("B", 2)], [("C", 3)]] 1 [("B", 2)]
    (by rfl) (by decide) (by decide) (by decide)

/-- C6: when every scoring call succeeds, `score_records` delivers one
result per record, in order: the result list has the same length as
the record list and its `k`-th element is the response body for the
`k`-th record. -/
theorem C6_one_result_per_record (α : Type)
    (net : Nat → Payload α → HttpResp α) (host module step : String)
    (stepsResp : StepsResponse) (records : List (List (String × α)))
    (hstep : get_step_id module stepsResp = .ok step)
    (hok : ∀ j, j < records.length → okFrom net records 0 j = true) :
    ∃ results,
      (score_records net host module stepsResp records).2 = .ok results ∧
      results.length = records.length ∧
      ∀ k rec, records.get? k = some rec →
        results.get? k = some (net k ⟨mk_inputs rec⟩).body := by
  obtain ⟨h1, _⟩ := score_loop_all_ok net (score_url host module step)
    records 0 hok
  refine ⟨loopResults net records 0, ?_, loopResults_length net records 0, ?_⟩
  · simp [score_records, hstep, h1, Except.mapError]
  · intro k rec hrec
    rw [loopResults_get?, hrec]
    simp

theorem C6_one_result_per_record_witness :
    get_step_id "hmeq_gbm" (⟨some [Step.mk "score"]⟩ : StepsResponse) =
        .ok "score" ∧
    (∀ j, j < ([[("LOAN", (50000 : Int))], [("VALUE", 2)]] :
        List (List (String × Int))).length →
      okFrom (fun i _ => ⟨true, 200, "", ⟨some [⟨"bad", (i : Int)⟩], none⟩⟩)
        [[("LOAN", (50000 : Int))], [("VALUE", 2)]] 0 j = true) ∧
    (∃ results,
      (score_records
          (fun i _ => ⟨true, 200, "", ⟨some [⟨"bad", (i : Int)⟩], none⟩⟩)
          "https://host" "hmeq_gbm" (⟨some [Step.mk "score"]⟩ : StepsResponse)
          [[("LOAN", (50000 : Int))], [("VALUE", 2)]]).2 = .ok results ∧
      results.length =
        ([[("LOAN", (50000 : Int))], [("VALUE", 2)]] :
          List (List (String × Int))).length ∧
      ∀ k rec, ([[("LOAN", (50000 : Int))], [("VALUE", 2)]] :
          List (List (String × Int))).get? k = some rec →
        results.get? k = some ((fun (i : Nat) (_ : Payload Int) =>
          (⟨true, 200, "", ⟨some [⟨"bad", (i : Int)⟩], none⟩⟩ : HttpResp Int))
          k ⟨mk_inputs rec⟩).body) := by
  refine ⟨by rfl, by decide, ?_⟩
  exact C6_one_result_per_record Int
    (fun i _ => ⟨true, 200, "", ⟨some [⟨"bad", (i : Int)⟩], none⟩⟩)
    "https://host" "hmeq_gbm" "score" (⟨some [Step.mk "score"]⟩ : StepsResponse)
    [[("LOAN", (50000 : Int))], [("VALUE", 2)]] (by rfl) (by decide)

/-- C7: every request `score_records` issues for record `k` carries the
payload `{'inputs': [...]}` holding one entry per key of that record,
key lower-cased and value unchanged, with no schema filtering; in
particular the record `{"LOAN": 50000}` produces the inputs
`[{"name": "loan", "value": 50000}]`. -/
theorem C7_payload_shape (α : Type) (net : Nat → Payload α → HttpResp α)
    (host module : String) (stepsResp : StepsResponse)
    (records : List (List (String × α))) (k : Nat)
    (rec : List (String × α)) (req : Request α)
    (hrec : records.get? k = some rec)
    (hreq : (score_records net host module stepsResp records).1.get? k
      = some req) :
    req.payload = ⟨rec.map (fun kv => ⟨pyLower kv.1, kv.2⟩)⟩ ∧
      (⟨mk_inputs [("LOAN", (50000 : Int))]⟩ : Payload Int) =
        ⟨[⟨"loan", 50000⟩]⟩ := by
  refine ⟨?_, by decide⟩
  cases hstep : get_step_id module stepsResp with
  | error e => simp [score_records, hstep] at hreq
  | ok step =>
    obtain ⟨m, _, htr⟩ := score_loop_trace net (score_url host module step)
      records 0
    have htrace : (score_records net host module stepsResp records).1 =
        (score_loop net (score_url host module step) records 0).1 := by
      simp [score_records, hstep]
    rw [htrace, htr, List.get?_map] at hreq
    cases htk : (records.take m).get? k with
    | none => rw [htk] at hreq; simp at hreq
    | some rec' =>
      rw [htk] at hreq
      have hkm : k < m := by
        have hlen := (List.get?_eq_some.mp htk).1
        rw [List.length_take] at hlen
        omega
      have : rec' = rec := by
        have := List.get?_take hkm (l := records)
        rw [htk, hrec] at this
        exact Option.some.inj this
      subst this
      have hr : req = ⟨score_url host module step, ⟨mk_inputs rec'⟩⟩ := by
        simpa using hreq.symm
      rw [hr]
      rfl

theorem C7_payload_shape_witness :
    (([[("LOAN", (50000 : Int))]] :
        List (List (String × Int))).get? 0 = some [("LOAN", 50000)]) ∧
    ((score_records (fun _ _ => ⟨true, 200, "", ⟨none, none⟩⟩)
        "https://host" "hmeq_gbm" (⟨some [Step.mk "score"]⟩ : StepsResponse)
        [[("LOAN", (50000 : Int))]]).1.get? 0 =
      some ⟨score_url "https://host" "hmeq_gbm" "score",
        ⟨[⟨"loan", 50000⟩]⟩⟩) ∧
    ((⟨score_url "https://host" "hmeq_gbm" "score",
        ⟨[⟨"loan", (50000 : Int)⟩]⟩⟩ : Request Int).payload =
      ⟨[("LOAN", (50000 : Int))].map (fun kv => ⟨pyLower kv.1, kv.2⟩)⟩ ∧
      (⟨mk_inputs [("LOAN", (50000 : Int))]⟩ : Payload Int) =
        ⟨[⟨"loan", 50000⟩]⟩) := by
  refine ⟨by decide, by rfl, ?_⟩
  exact C7_payload_shape Int (fun _ _ => ⟨true, 200, "", ⟨none, none⟩⟩)
    "https://host" "hmeq_gbm" (⟨some [Step.mk "score"]⟩ : StepsResponse)
    [[("LOAN", (50000 : Int))]] 0 [("LOAN", 50000)]
    ⟨score_url "https://host" "hmeq_gbm" "score", ⟨[⟨"loan", 50000⟩]⟩⟩
    (by decide) (by rfl)

/-- C8: the step is resolved once per batch, before any record is
scored (`score_records` consults `get_step_id` a single time), and
every request issued in the batch targets the one URL derived from
that resolution: `host/microanalyticScore/modules/{module}/steps/{step}`. -/
theorem C8_same_endpoint (α : Type) (net : Nat → Payload α → HttpResp α)
    (host module step : String) (stepsResp : StepsResponse)
    (records : List (List (String × α)))
    (hstep : get_step_id module stepsResp = .ok step) :
    ∀ req ∈ (score_records net host module stepsResp records).1,
      req.url = score_url host module step := by
  intro req hreq
  have htrace : (score_records net host module stepsResp records).1 =
      (score_loop net (score_url host module step) records 0).1 := by
    simp [score_records, hstep]
  rw [htrace] at hreq
  exact score_loop_url net (score_url host module step) records 0 req hreq

theorem C8_same_endpoint_witness :
    get_step_id "hmeq_gbm" (⟨some [Step.mk "score"]⟩ : StepsResponse) =
        .ok "score" ∧
    ∀ req ∈ (score_records (fun _ _ => ⟨true, 200, "", ⟨none, none⟩⟩)
        "https://host" "hmeq_gbm" (⟨some [Step.mk "score"]⟩ : StepsResponse)
        [[("LOAN", (50000 : Int))], [("VALUE", 2)]]).1,
      req.url = score_url "https://host" "hmeq_gbm" "score" :=
  ⟨by rfl, C8_same_endpoint Int (fun _ _ => ⟨true, 200, "", ⟨none, none⟩⟩)
    "https://host" "hmeq_gbm" "score" (⟨some [Step.mk "score"]⟩ : StepsResponse)
    [[("LOAN", (50000 : Int))], [("VALUE", 2)]] (by rfl)⟩

end MasRest
